import Mathlib

/-
Verification development for the multiagent-inspect repository
(src/multiagent_inspect/core.py).  The Python source is shallowly
embedded: the session store becomes an explicit association list that is
threaded through every operation, the model-invocation and tool-dispatch
collaborators become function parameters returning Except values, and
Python exceptions become explicit error constructors carried in result
types.
-/

set_option autoImplicit false
set_option maxRecDepth 4096

namespace MultiagentInspect

/-- Name of the sentinel termination tool, Python function `_end_run`. -/
def endRunName : String := "_end_run"

/-- Collaborator failures (model invocation or tool dispatch raising) are
identified by an uninterpreted string. -/
abbrev CollabErr := String

/-- Python exceptions that the embedded code can raise. -/
inductive PyError where
  | typeError
  | indexError
  | attributeError
  | nameError
  | collabError (e : CollabErr)
  deriving DecidableEq, Repr

/-- An assistant chat message as produced by the model collaborator:
its text plus the list of requested tool-call names.  Python truthiness of
`output.message.tool_calls` (None or empty list are falsy) is modelled by
emptiness of the list. -/
structure AssistantMsg where
  text : String
  tool_calls : List String
  deriving DecidableEq, Repr

/-- A tool-result message (ChatMessageTool): the name of the capability it
answers and its text. -/
structure ToolResult where
  function : String
  text : String
  deriving DecidableEq, Repr

/-- Chat messages (inspect_ai message value types, external collaborators;
only the fields the core reads are modelled). -/
inductive Message where
  | system (content : String)
  | user (content : String)
  | assistant (m : AssistantMsg)
  | tool (r : ToolResult)
  deriving DecidableEq, Repr

/-- Free-form metadata mapping; never interpreted by the core. -/
abbrev Metadata := List (String × String)

/-- A tool is identified by its ToolDef name; the core only ever passes
tools through to collaborators and reads their names. -/
abbrev ToolNames := List String

/-- The default model string from `SubAgent.__init__`. -/
def defaultModelName : String := "openai/gpt-4o-mini-2024-07-18-free"

/-- Base system template `DEFAULT_SYSTEM_MESSAGE.format(submit=...)`.
The template text lives in inspect_ai (external to the repository), so it
is modelled as an uninterpreted function of the submit-tool name; no claim
depends on its content. -/
def DEFAULT_SYSTEM_MESSAGE (submit : String) : String :=
  "DEFAULT_SYSTEM_MESSAGE with submit=" ++ submit

/-- The seed system message built in `SubAgent.__init__`: template plus
fixed guidance plus the internal description. -/
def initialSysMsg (internal_description : String) : String :=
  DEFAULT_SYSTEM_MESSAGE endRunName ++
    "\n\nOnly attempt tasks which you think you can do with your limited set of tools. After running a task, you might be asked questions about it. Only answer things that you know that you have done.\n\n" ++
    internal_description

/-- The stored state of one sub-agent.  Mirrors the attributes set in
`SubAgent.__init__`: note the internal description is folded into the seed
system message and is not itself stored. -/
structure SubAgent where
  agent_id : String
  max_steps : Nat
  model : String
  public_description : String
  tools : Option ToolNames
  metadata : Option Metadata
  messages : List Message
  deriving DecidableEq, Repr

/-- Decimal digit character, code 48 + d. -/
def digitChar (d : Nat) : Char := Char.ofNat (48 + d)

/-- Fuel-driven most-significant-first decimal digits of a natural
number; fuel n + 1 always suffices since n / 10 decreases strictly. -/
def decDigitsAux : Nat → Nat → List Char
  | 0, _ => []
  | fuel + 1, n =>
      if n < 10 then [digitChar n]
      else decDigitsAux fuel (n / 10) ++ [digitChar (n % 10)]

/-- Standard decimal digit list of a natural number. -/
def decDigits (n : Nat) : List Char := decDigitsAux (n + 1) n

/-- Embedding of the Python format expression side of
`f"{SubAgent._id_counter:03d}"`: the decimal rendering of n, left-padded
with zeros to a minimum width of 3. -/
def formatId (n : Nat) : String :=
  String.mk (List.replicate (3 - (decDigits n).length) '0' ++ decDigits n)

/-- Embedding of `SubAgent.__init__`.  The process-wide class counter
`SubAgent._id_counter` is threaded explicitly: the function takes the
current counter and returns the constructed agent together with the new
counter (advanced only when the id was auto-assigned). -/
def mkSubAgent (counter : Nat) (agent_id : Option String) (max_steps : Nat)
    (model : String) (public_description : String)
    (internal_description : String) (tools : Option ToolNames)
    (metadata : Option Metadata) : SubAgent × Nat :=
  match agent_id with
  | some i =>
      (⟨i, max_steps, model, public_description, tools, metadata,
        [Message.system (initialSysMsg internal_description)]⟩, counter)
  | none =>
      (⟨formatId counter, max_steps, model, public_description, tools, metadata,
        [Message.system (initialSysMsg internal_description)]⟩, counter + 1)

/-- Single-quote character, used by the Python list repr of tool names. -/
def sq : String := String.singleton (Char.ofNat 39)

/-- Python repr of a list of strings, as produced by
`f"Tools: \x7btool_names\x7d"` on a list of names. -/
def pyStrListRepr (names : List String) : String :=
  "[" ++ String.intercalate ", " (names.map (fun n => sq ++ n ++ sq)) ++ "]"

/-- Embedding of `SubAgent.__str__`: id, model, public description,
max steps, and a tool-name list only when tools is truthy (neither None
nor empty). -/
def SubAgent.describe (a : SubAgent) : String :=
  let base :=
    "ID: " ++ a.agent_id ++ "\n" ++
    "Model: " ++ a.model ++ "\n" ++
    "Description: " ++ a.public_description ++ "\n" ++
    "Max Steps: " ++ toString a.max_steps ++ "\n"
  match a.tools with
  | none => base
  | some ts => if ts.isEmpty then base else base ++ "Tools: " ++ pyStrListRepr ts ++ "\n"

/-- The session-store value under the key "sub_agents": a Python dict
id → SubAgent, modelled as an insertion-ordered association list with
unique keys.  This view holds entity-state VALUES — a snapshot of each
stored object at the time of the operation.  The Python dict actually
holds object REFERENCES aliased to the in-memory SubAgent instances, so
in-place mutations are visible through the store even without a persist;
the reference-faithful model is given below by Heap and RefRegistry, and
this snapshot view is used only for properties that do not depend on that
aliasing. -/
abbrev Registry := List (String × SubAgent)

/-- Python dict read `d[k]` combined with `k in d`: the first entry with
the given key, none when absent. -/
def dictGet (reg : Registry) (k : String) : Option SubAgent :=
  match reg with
  | [] => none
  | (k2, a) :: rest => if k2 = k then some a else dictGet rest k

/-- Python dict assignment `d[k] = v`: replace in place when the key is
present (keeping its position), otherwise append. -/
def dictSet (reg : Registry) (k : String) (a : SubAgent) : Registry :=
  match reg with
  | [] => [(k, a)]
  | (k2, b) :: rest => if k2 = k then (k, a) :: rest else (k2, b) :: dictSet rest k a

/-- Embedding of `_get_agent`.  With no id, Python takes
`list(sub_agents.keys())[0]`, which raises IndexError on an empty (or
absent, hence defaulted-empty) registry; with an id, a missing key yields
None rather than an error. -/
def _get_agent (reg : Registry) (sub_agent_id : Option String) :
    Except PyError (Option SubAgent) :=
  match sub_agent_id with
  | none =>
      match reg with
      | [] => .error .indexError
      | (k, _) :: _ => .ok (dictGet reg k)
  | some i => .ok (dictGet reg i)

/-- Embedding of `_update_store`: read the registry, set the entry for the
entity id, write the registry back. -/
def _update_store (reg : Registry) (a : SubAgent) : Registry :=
  dictSet reg a.agent_id a

/-- Dict comprehension from `init_sub_agents`:
a fresh mapping agent_id → agent, in list order, later duplicates
overwriting earlier values. -/
def buildRegistry (agents : List SubAgent) : Registry :=
  agents.foldl (fun r a => dictSet r a.agent_id a) []

/-- The observable schema of one generated capability: its name and the
parameter names of its execute closure. -/
structure SurfaceTool where
  name : String
  params : List String
  deriving DecidableEq, Repr

/-- Embedding of `init_sub_agents`: with fewer than one agent return an
empty tool list without touching the store; otherwise overwrite the
"sub_agents" store key wholesale with the id → agent mapping and emit the
three capabilities, in multi shape when more than one agent is configured
and in single shape when exactly one is. -/
def init_sub_agents (reg : Registry) (agents : List SubAgent) :
    Registry × List SurfaceTool :=
  if agents.length < 1 then (reg, [])
  else
    let reg2 := buildRegistry agents
    if agents.length > 1 then
      (reg2,
        [⟨"sub_agent_specs", []⟩,
         ⟨"run_sub_agent", ["sub_agent_id", "instructions"]⟩,
         ⟨"chat_with_sub_agent", ["sub_agent_id", "question"]⟩])
    else
      (reg2,
        [⟨"sub_agent_specs", []⟩,
         ⟨"run_sub_agent", ["instructions"]⟩,
         ⟨"chat_with_sub_agent", ["question"]⟩])

/-- Multi-mode `sub_agent_specs` execute body:
`"\n".join([str(sub_agent) for sub_agent in sub_agents])` where
`sub_agents` is the stored dict — iterating a Python dict yields its KEYS,
so this joins the id strings, not the entity descriptions. -/
def sub_agent_specs_multi (reg : Registry) : String :=
  String.intercalate "\n" (reg.map (fun kv => kv.1))

/-- Single-mode `sub_agent_specs` execute body: resolve the default agent
and render it with `str`. -/
def sub_agent_specs_single (reg : Registry) : Except PyError String :=
  match _get_agent reg none with
  | .error e => .error e
  | .ok none => .ok "None"
  | .ok (some a) => .ok a.describe

/-- The model-invocation collaborator `get_model(...).generate`: a function
of the message history and the offered capability set (none when the
`tools` argument is not passed at all, as in chat), which either raises or
returns an assistant message. -/
abbrev Gen := List Message → Option ToolNames → Except CollabErr AssistantMsg

/-- The tool-dispatch collaborator `call_tools`: a function of the
assistant message and the capability set, which either raises or returns
the ordered list of tool-result messages. -/
abbrev Disp := AssistantMsg → ToolNames → Except CollabErr (List ToolResult)

/-- Result of one run-loop execution, before the surrounding bookkeeping
of `_run_logic`.  The loop either finishes normally (done: final messages,
final value of the Python loop variable `steps`, number of model
invocations made, and whether exit was via the explicit-termination
break), or reaches the f-string with the loop variable never bound
(unbound: zero iterations, max_steps = 0), or raises (pyErr). -/
inductive LoopExit where
  | done (msgs : List Message) (steps calls : Nat) (terminated : Bool)
  | unbound (msgs : List Message)
  | pyErr (e : PyError) (msgs : List Message) (calls : Nat)
  deriving DecidableEq, Repr

/-- Embedding of the `for steps in range(sub_agent.max_steps)` loop in
`_run_logic`, structurally recursive on the remaining fuel.  The arguments
track the current step index (the next value of `steps`), the message
history so far, and the number of model invocations so far.  Each
iteration evaluates `sub_agent.tools + [_end_run()]` (a TypeError when
tools is None), invokes the model, appends the assistant message, and when
tool calls were requested dispatches them, appends every result in order,
and breaks exactly when some result has function name `_end_run`. -/
def runSteps (gen : Gen) (disp : Disp) (tools : Option ToolNames) :
    Nat → Nat → List Message → Nat → LoopExit
  | 0, idx, msgs, calls =>
      if idx = 0 then .unbound msgs else .done msgs (idx - 1) calls false
  | fuel + 1, idx, msgs, calls =>
      match tools with
      | none => .pyErr .typeError msgs calls
      | some ts =>
          match gen msgs (some (ts ++ [endRunName])) with
          | .error e => .pyErr (.collabError e) msgs (calls + 1)
          | .ok out =>
              match out.tool_calls with
              | [] =>
                  runSteps gen disp tools fuel (idx + 1)
                    (msgs ++ [Message.assistant out]) (calls + 1)
              | _ :: _ =>
                  match disp out (ts ++ [endRunName]) with
                  | .error e =>
                      .pyErr (.collabError e) (msgs ++ [Message.assistant out]) (calls + 1)
                  | .ok results =>
                      match results.any (fun r => r.function == endRunName) with
                      | true =>
                          .done ((msgs ++ [Message.assistant out]) ++ results.map Message.tool)
                            idx (calls + 1) true
                      | false =>
                          runSteps gen disp tools fuel (idx + 1)
                            ((msgs ++ [Message.assistant out]) ++ results.map Message.tool)
                            (calls + 1)

/-- The status string built by the return statement of `_run_logic`. -/
def statusString (steps : Nat) : String :=
  "Sub agent ran for " ++ toString steps ++ " steps. You can now ask it questions."

/-- Outcome of `_run_logic`: either the normal return (updated registry,
updated in-memory agent, status string, plus the observables steps, model
invocation count and termination flag carried out of the loop), or an
error together with the registry and the in-memory agent state at the
moment of raising. -/
inductive RunResult where
  | ok (reg : Registry) (agent : SubAgent) (status : String)
      (steps calls : Nat) (terminated : Bool)
  | err (e : PyError) (reg : Registry) (agent : SubAgent) (calls : Nat)
  deriving DecidableEq, Repr

/-- Number of model invocations made by a run, in every outcome. -/
def RunResult.callCount : RunResult → Nat
  | .ok _ _ _ _ calls _ => calls
  | .err _ _ _ calls => calls

/-- Embedding of `_run_logic` over the snapshot registry view: append the
instruction user message, run the step loop, and on normal loop exit
persist the entity and return the status string.  A collaborator failure
or the tools-is-None TypeError propagates before the store write; with
max_steps = 0 the store IS written (the write precedes the return
statement) and then the f-string raises a NameError on the unbound loop
variable.  The error constructor carries the input registry because no
store WRITE happened; what the store nevertheless sees through object
aliasing is modelled by `_run_logic_ref` below. -/
def _run_logic (gen : Gen) (disp : Disp) (reg : Registry) (a : SubAgent)
    (instructions : String) : RunResult :=
  let a1 : SubAgent := { a with messages := a.messages ++ [Message.user instructions] }
  match runSteps gen disp a1.tools a1.max_steps 0 a1.messages 0 with
  | .unbound msgs =>
      let a2 : SubAgent := { a1 with messages := msgs }
      .err .nameError (_update_store reg a2) a2 0
  | .pyErr e msgs calls => .err e reg { a1 with messages := msgs } calls
  | .done msgs steps calls term =>
      let a2 : SubAgent := { a1 with messages := msgs }
      .ok (_update_store reg a2) a2 (statusString steps) steps calls term

/-- Outcome of `_chat_logic`. -/
inductive ChatResult where
  | ok (reg : Registry) (agent : SubAgent) (text : String)
  | err (e : PyError) (reg : Registry) (agent : SubAgent)
  deriving DecidableEq, Repr

/-- Embedding of `_chat_logic` over the snapshot registry view: append
the question user message, invoke the model with NO tools argument,
append the assistant message, persist, and return the assistant text.  On
the error path no store write happens; the question message is still in
the aliased in-memory object, which `_chat_logic_ref` below models. -/
def _chat_logic (gen : Gen) (reg : Registry) (a : SubAgent)
    (question : String) : ChatResult :=
  let a1 : SubAgent := { a with messages := a.messages ++ [Message.user question] }
  match gen a1.messages none with
  | .error e => .err (.collabError e) reg a1
  | .ok out =>
      let a2 : SubAgent := { a1 with messages := a1.messages ++ [Message.assistant out] }
      .ok (_update_store reg a2) a2 out.text

/-- Outcome of one generated capability invocation as seen by the primary
agent: a text result, or an error, with the resulting registry. -/
inductive CapResult where
  | ok (reg : Registry) (text : String)
  | err (e : PyError) (reg : Registry)
  deriving DecidableEq, Repr

/-- Multi-mode `run_sub_agent` execute body: resolve the target by
explicit id and run it.  When resolution yields None, `_run_logic`
dereferences None (`sub_agent.messages`), an AttributeError. -/
def run_sub_agent_multi (gen : Gen) (disp : Disp) (reg : Registry)
    (sub_agent_id instructions : String) : CapResult :=
  match _get_agent reg (some sub_agent_id) with
  | .error e => .err e reg
  | .ok none => .err .attributeError reg
  | .ok (some a) =>
      match _run_logic gen disp reg a instructions with
      | .ok reg2 _ status _ _ _ => .ok reg2 status
      | .err e reg2 _ _ => .err e reg2

/-- Single-mode `run_sub_agent` execute body: resolve the default agent
and run it. -/
def run_sub_agent_single (gen : Gen) (disp : Disp) (reg : Registry)
    (instructions : String) : CapResult :=
  match _get_agent reg none with
  | .error e => .err e reg
  | .ok none => .err .attributeError reg
  | .ok (some a) =>
      match _run_logic gen disp reg a instructions with
      | .ok reg2 _ status _ _ _ => .ok reg2 status
      | .err e reg2 _ _ => .err e reg2

/-- Multi-mode `chat_with_sub_agent` execute body. -/
def chat_with_sub_agent_multi (gen : Gen) (reg : Registry)
    (sub_agent_id question : String) : CapResult :=
  match _get_agent reg (some sub_agent_id) with
  | .error e => .err e reg
  | .ok none => .err .attributeError reg
  | .ok (some a) =>
      match _chat_logic gen reg a question with
      | .ok reg2 _ text => .ok reg2 text
      | .err e reg2 _ => .err e reg2

/-- Single-mode `chat_with_sub_agent` execute body. -/
def chat_with_sub_agent_single (gen : Gen) (reg : Registry)
    (question : String) : CapResult :=
  match _get_agent reg none with
  | .error e => .err e reg
  | .ok none => .err .attributeError reg
  | .ok (some a) =>
      match _chat_logic gen reg a question with
      | .ok reg2 _ text => .ok reg2 text
      | .err e reg2 _ => .err e reg2

/-- List of sub-agents produced by k successive constructions with the id
argument omitted, starting from a given counter value (all other
construction arguments at their Python defaults). -/
def autoConstruct (c : Nat) : Nat → List SubAgent
  | 0 => []
  | k + 1 =>
      let p := mkSubAgent c none 10 defaultModelName "" "" none none
      p.1 :: autoConstruct p.2 k

/-- The ids assigned by k successive id-omitted constructions starting
from counter c. -/
def autoIdsFrom (c k : Nat) : List String :=
  (autoConstruct c k).map SubAgent.agent_id

/-- Numeric value of a digit string read left to right, used to express
numeric monotonicity of the auto-assigned ids. -/
def digitsVal (l : List Char) : Nat :=
  l.foldl (fun acc c => acc * 10 + (c.toNat - 48)) 0

/-- Example model collaborator that always answers with no tool calls. -/
def exGen : Gen := fun _ _ => Except.ok ⟨"ok", []⟩

/-- Example dispatcher that returns no results. -/
def exDisp : Disp := fun _ _ => Except.ok []

/-- Example model collaborator that immediately requests the termination
tool. -/
def exGenEnd : Gen := fun _ _ => Except.ok ⟨"calling", [endRunName]⟩

/-- Example dispatcher answering the termination call. -/
def exDispEnd : Disp := fun _ _ =>
  Except.ok [⟨endRunName, "Run ended with reason: done"⟩]

/-- Example model collaborator that raises. -/
def exGenBoom : Gen := fun _ _ => Except.error "boom"

/-- Example agent with one tool and a budget of 2, auto id "001". -/
def exAgentA : SubAgent :=
  (mkSubAgent 1 none 2 defaultModelName "descA" "" (some ["dummy_tool"]) none).1

/-- Example agent with default-like fields, auto id "002". -/
def exAgentB : SubAgent :=
  (mkSubAgent 2 none 10 defaultModelName "descB" "" none none).1

/-- Example registry built from the two example agents. -/
def exRegistry : Registry := (init_sub_agents [] [exAgentA, exAgentB]).1

/-- Message state of exAgentA after the exGen run of two budget steps. -/
def exAgentA2 : SubAgent :=
  { exAgentA with
    messages := (exAgentA.messages ++ [Message.user "go"]) ++
      List.replicate 2 (Message.assistant ⟨"ok", []⟩) }

/-- Message state of exAgentA after a run under exGenEnd and exDispEnd:
one assistant turn requesting the termination tool, then its result. -/
def exAgentAEnd : SubAgent :=
  { exAgentA with
    messages :=
      ((exAgentA.messages ++ [Message.user "go"]) ++
        [Message.assistant ⟨"calling", [endRunName]⟩]) ++
      [Message.tool ⟨endRunName, "Run ended with reason: done"⟩] }

/-- Python object identity of an in-memory SubAgent instance. -/
abbrev AgentRef := Nat

/-- The live SubAgent objects of the process: object identity to current
object state.  Python mutates `sub_agent.messages` in place; that is
modelled as updating the heap entry for the identity while every alias
(local variable, registry entry) keeps holding the same reference. -/
abbrev Heap := List (AgentRef × SubAgent)

/-- Read the object a reference points to. -/
def heapGet (h : Heap) (r : AgentRef) : Option SubAgent :=
  match h with
  | [] => none
  | (r2, a) :: rest => if r2 = r then some a else heapGet rest r

/-- In-place mutation of the object a reference points to. -/
def heapSet (h : Heap) (r : AgentRef) (a : SubAgent) : Heap :=
  match h with
  | [] => [(r, a)]
  | (r2, b) :: rest => if r2 = r then (r, a) :: rest else (r2, b) :: heapSet rest r a

/-- The "sub_agents" dict with the source's reference semantics: ids map
to object REFERENCES (what a Python dict actually stores), not copies. -/
abbrev RefRegistry := List (String × AgentRef)

/-- Python dict read on the reference-holding registry. -/
def refDictGet (reg : RefRegistry) (k : String) : Option AgentRef :=
  match reg with
  | [] => none
  | (k2, r) :: rest => if k2 = k then some r else refDictGet rest k

/-- Python dict assignment on the reference-holding registry. -/
def refDictSet (reg : RefRegistry) (k : String) (r : AgentRef) : RefRegistry :=
  match reg with
  | [] => [(k, r)]
  | (k2, r2) :: rest =>
      if k2 = k then (k, r) :: rest else (k2, r2) :: refDictSet rest k r

/-- The entity state visible through the registry: resolve the id to the
stored reference, then read the referenced object from the heap.  This is
what a subsequent `_get_agent` lookup observes. -/
def refResolve (reg : RefRegistry) (h : Heap) (k : String) : Option SubAgent :=
  match refDictGet reg k with
  | none => none
  | some r => heapGet h r

/-- Outcome of a run or chat under reference semantics: the final heap
(object states) and registry (id → reference mapping), with the returned
text on success. -/
inductive RunRefResult where
  | ok (heap : Heap) (reg : RefRegistry) (status : String)
  | err (e : PyError) (heap : Heap) (reg : RefRegistry)
  deriving DecidableEq, Repr

/-- Embedding of `_run_logic` with the store reference semantics of the
source: the registry dict holds the SubAgent OBJECT itself, message
appends mutate that object in place (heap update at its reference, folded
into one write of the final message list since the heap is not read again
mid-run), and `_update_store` after normal loop exit only rewrites the
id → object mapping.  On a collaborator failure the mapping is untouched,
but the heap already holds the partially extended message list, so the
messages of the failed run remain reachable through the registry.  The
dangling-reference branch is unreachable for references actually stored. -/
def _run_logic_ref (gen : Gen) (disp : Disp) (heap : Heap) (reg : RefRegistry)
    (r : AgentRef) (instructions : String) : RunRefResult :=
  match heapGet heap r with
  | none => .err PyError.attributeError heap reg
  | some a =>
      let a1 : SubAgent := { a with messages := a.messages ++ [Message.user instructions] }
      match runSteps gen disp a1.tools a1.max_steps 0 a1.messages 0 with
      | .unbound msgs =>
          let a2 : SubAgent := { a1 with messages := msgs }
          .err PyError.nameError (heapSet heap r a2) (refDictSet reg a2.agent_id r)
      | .pyErr e msgs _ =>
          let a2 : SubAgent := { a1 with messages := msgs }
          .err e (heapSet heap r a2) reg
      | .done msgs steps _ _ =>
          let a2 : SubAgent := { a1 with messages := msgs }
          .ok (heapSet heap r a2) (refDictSet reg a2.agent_id r) (statusString steps)

/-- Embedding of `_chat_logic` with the store reference semantics: the
question message mutates the shared object before the model call, so a
model failure leaves it reachable through the registry even though the
id → object mapping write is skipped. -/
def _chat_logic_ref (gen : Gen) (heap : Heap) (reg : RefRegistry)
    (r : AgentRef) (question : String) : RunRefResult :=
  match heapGet heap r with
  | none => .err PyError.attributeError heap reg
  | some a =>
      let a1 : SubAgent := { a with messages := a.messages ++ [Message.user question] }
      match gen a1.messages none with
      | .error e => .err (.collabError e) (heapSet heap r a1) reg
      | .ok out =>
          let a2 : SubAgent := { a1 with messages := a1.messages ++ [Message.assistant out] }
          .ok (heapSet heap r a2) (refDictSet reg a2.agent_id r) out.text

/-- State of exAgentA right after the instruction "go" is appended. -/
def exAgentA1go : SubAgent :=
  { exAgentA with messages := exAgentA.messages ++ [Message.user "go"] }

end MultiagentInspect

namespace MultiagentInspect

theorem digitsVal_append (l : List Char) (c : Char) :
    digitsVal (l ++ [c]) = digitsVal l * 10 + (c.toNat - 48) := by
  simp [digitsVal, List.foldl_append]

theorem digitChar_toNat (d : Nat) (h : d < 10) : (digitChar d).toNat = 48 + d := by
  interval_cases d <;> decide

theorem decDigitsAux_val : ∀ fuel n, n < fuel → digitsVal (decDigitsAux fuel n) = n := by
  intro fuel
  induction fuel with
  | zero => intro n h; omega
  | succ fuel ih =>
      intro n h
      by_cases h10 : n < 10
      · simp [decDigitsAux, h10, digitsVal, digitChar_toNat n h10]
      · have hd : n / 10 < fuel := by omega
        have hm : n % 10 < 10 := Nat.mod_lt _ (by norm_num)
        simp [decDigitsAux, h10, digitsVal_append, ih (n / 10) hd,
          digitChar_toNat (n % 10) hm]
        omega

theorem digitsVal_zeros : ∀ (k : Nat) (l : List Char),
    digitsVal (List.replicate k '0' ++ l) = digitsVal l := by
  intro k l
  induction k with
  | zero => rfl
  | succ k ih =>
      rw [List.replicate_succ, List.cons_append]
      simp only [digitsVal, List.foldl_cons]
      have h0 : (0 * 10 + ('0'.toNat - 48)) = 0 := by decide
      rw [h0]
      exact ih

theorem formatId_val (n : Nat) : digitsVal (formatId n).data = n := by
  have h1 : (formatId n).data =
      List.replicate (3 - (decDigits n).length) '0' ++ decDigits n := rfl
  rw [h1, digitsVal_zeros, decDigits, decDigitsAux_val (n + 1) n (Nat.lt_succ_self n)]

theorem formatId_injective : Function.Injective formatId := by
  intro m n h
  have h2 := congrArg (fun s => digitsVal s.data) h
  simpa [formatId_val] using h2

theorem formatId_length (n : Nat) :
    (formatId n).length = max 3 (decDigits n).length := by
  show (List.replicate (3 - (decDigits n).length) '0' ++ decDigits n).length = _
  simp [List.length_append, List.length_replicate]
  omega

theorem decDigitsAux_length : ∀ fuel n k, n < fuel → 1 ≤ k → n < 10 ^ k →
    (decDigitsAux fuel n).length ≤ k := by
  intro fuel
  induction fuel with
  | zero => intro n k h; omega
  | succ fuel ih =>
      intro n k hfuel hk hpow
      by_cases h10 : n < 10
      · simp [decDigitsAux, h10]; omega
      · have hk2 : 2 ≤ k := by
          by_contra hlt
          have hk1 : k = 1 := by omega
          subst hk1
          norm_num at hpow
          omega
        have hpowk : (10 : Nat) ^ k = 10 ^ (k - 1) * 10 := by
          conv_lhs => rw [show k = (k - 1) + 1 by omega]
          rw [pow_succ]
        have hdiv : n / 10 < 10 ^ (k - 1) := by
          rw [Nat.div_lt_iff_lt_mul (by norm_num)]
          omega
        have hfl : n / 10 < fuel := by omega
        have hrec := ih (n / 10) (k - 1) hfl (by omega) hdiv
        simp [decDigitsAux, h10, List.length_append]
        omega

theorem formatId_length_eq_three (n : Nat) (h : n ≤ 999) :
    (formatId n).length = 3 := by
  have hlen : (decDigits n).length ≤ 3 :=
    decDigitsAux_length (n + 1) n 3 (Nat.lt_succ_self n) (by norm_num) (by omega)
  rw [formatId_length]
  omega

theorem autoIdsFrom_succ (c k : Nat) :
    autoIdsFrom c (k + 1) = formatId c :: autoIdsFrom (c + 1) k := by
  simp [autoIdsFrom, autoConstruct, mkSubAgent]

theorem autoIdsFrom_length : ∀ (k c : Nat), (autoIdsFrom c k).length = k := by
  intro k
  induction k with
  | zero => intro c; rfl
  | succ k ih => intro c; rw [autoIdsFrom_succ]; simp [ih]

theorem autoIdsFrom_get : ∀ (k c i : Nat), i < k →
    (autoIdsFrom c k)[i]? = some (formatId (c + i)) := by
  intro k
  induction k with
  | zero => intro c i h; omega
  | succ k ih =>
      intro c i h
      rw [autoIdsFrom_succ]
      cases i with
      | zero => simp
      | succ i =>
          have h2 := ih (c + 1) i (by omega)
          have h3 : c + 1 + i = c + (i + 1) := by omega
          rw [h3] at h2
          simpa using h2

theorem mkSubAgent_counter_mono (c ms : Nat) (ai : Option String)
    (md pd intd : String) (tl : Option ToolNames) (mt : Option Metadata) :
    c ≤ (mkSubAgent c ai ms md pd intd tl mt).2 := by
  cases ai <;> simp [mkSubAgent]

/-- C8 (amended): in one process, the ids assigned by successive
constructions with the id omitted are pairwise distinct, are the values of
a single process-wide counter starting at 1 that the constructor never
decrements or resets (regardless of registries, which never touch it),
rendered in decimal and zero-padded to a minimum width of 3 (exactly 3
while the counter is at most 999), starting at "001", and strictly
increasing in construction order in numeric value. -/
theorem C8_auto_id_contract (k i j : Nat) (hij : i < j) (hjk : j < k) :
    (autoIdsFrom 1 k).length = k ∧
    (autoIdsFrom 1 k)[i]? = some (formatId (1 + i)) ∧
    (autoIdsFrom 1 k)[j]? = some (formatId (1 + j)) ∧
    formatId (1 + i) ≠ formatId (1 + j) ∧
    digitsVal (formatId (1 + i)).data < digitsVal (formatId (1 + j)).data ∧
    3 ≤ (formatId (1 + i)).length ∧
    (j ≤ 998 → (formatId (1 + j)).length = 3) ∧
    (autoIdsFrom 1 k)[0]? = some "001" ∧
    (∀ (c ms : Nat) (ai : Option String) (md pd intd : String)
        (tl : Option ToolNames) (mt : Option Metadata),
        c ≤ (mkSubAgent c ai ms md pd intd tl mt).2) := by
  refine ⟨autoIdsFrom_length k 1, autoIdsFrom_get k 1 i (by omega),
    autoIdsFrom_get k 1 j hjk, ?_, ?_, ?_, ?_, ?_, ?_⟩
  · intro h
    have h2 := formatId_injective h
    omega
  · rw [formatId_val, formatId_val]; omega
  · rw [formatId_length]; exact le_max_left 3 _
  · intro h; exact formatId_length_eq_three (1 + j) (by omega)
  · rw [autoIdsFrom_get k 1 0 (by omega)]; decide
  · intro c ms ai md pd intd tl mt
    exact mkSubAgent_counter_mono c ms ai md pd intd tl mt

/-- C8 witness: the amended contract instantiated at the first two
auto-constructed ids. -/
theorem C8_auto_id_contract_witness :
    (0 : Nat) < 1 ∧ (1 : Nat) < 2 ∧
    ((autoIdsFrom 1 2).length = 2 ∧
     (autoIdsFrom 1 2)[0]? = some (formatId (1 + 0)) ∧
     (autoIdsFrom 1 2)[1]? = some (formatId (1 + 1)) ∧
     formatId (1 + 0) ≠ formatId (1 + 1) ∧
     digitsVal (formatId (1 + 0)).data < digitsVal (formatId (1 + 1)).data ∧
     3 ≤ (formatId (1 + 0)).length ∧
     ((1 : Nat) ≤ 998 → (formatId (1 + 1)).length = 3) ∧
     (autoIdsFrom 1 2)[0]? = some "001" ∧
     (∀ (c ms : Nat) (ai : Option String) (md pd intd : String)
        (tl : Option ToolNames) (mt : Option Metadata),
        c ≤ (mkSubAgent c ai ms md pd intd tl mt).2)) :=
  ⟨by decide, by decide, C8_auto_id_contract 2 0 1 (by decide) (by decide)⟩

/-- C8 counterexample: in the sequence of 1000 id-omitted constructions in
one fresh process, the 1000th assigned id is "1000", a 4-character string,
refuting the claim that every auto-assigned id is a 3-digit zero-padded
decimal string. -/
theorem C8_counterexample :
    (autoIdsFrom 1 1000)[999]? = some "1000" ∧ ¬ (("1000" : String).length = 3) := by
  constructor
  · rw [autoIdsFrom_get 1000 1 999 (by norm_num)]
    decide
  · decide

/-- C1: evaluating the multi-mode list_specs capability on a registry of
two registered entities shows the code joining the dict KEYS, producing
the id lines "001\n002", not the newline-joined entity descriptions that
the capability docstring and the spec promise (iterating a Python dict
yields its keys, and the entity descriptions do contain model, description
and max-steps text that the emitted string lacks). -/
theorem C1_list_specs_joins_ids_not_descriptions :
    sub_agent_specs_multi exRegistry = "001\n002" ∧
    sub_agent_specs_multi exRegistry ≠
      String.intercalate "\n" (exRegistry.map (fun kv => SubAgent.describe kv.2)) ∧
    (exRegistry.map (fun kv => kv.2.public_description)) = ["descA", "descB"] := by
  refine ⟨?_, ?_, ?_⟩ <;> decide

/-- C6: the tool surface builder emits no tools and leaves the registry
untouched for zero agents; for one agent it writes the registry and emits
exactly three tools whose run/chat schemas take no sub_agent_id parameter;
for two or more it writes the registry and emits exactly three tools whose
run/chat schemas require sub_agent_id — the shape being fixed in the
returned schemas at build time. -/
theorem C6_tool_surface_arity (reg : Registry) (agents : List SubAgent) :
    (agents = [] → init_sub_agents reg agents = (reg, [])) ∧
    (agents.length = 1 →
       (init_sub_agents reg agents).1 = buildRegistry agents ∧
       (init_sub_agents reg agents).2.map SurfaceTool.params =
         [[], ["instructions"], ["question"]]) ∧
    (2 ≤ agents.length →
       (init_sub_agents reg agents).1 = buildRegistry agents ∧
       (init_sub_agents reg agents).2.map SurfaceTool.params =
         [[], ["sub_agent_id", "instructions"], ["sub_agent_id", "question"]]) := by
  refine ⟨?_, ?_, ?_⟩
  · intro h; subst h; rfl
  · intro h
    simp [init_sub_agents, h]
  · intro h
    have h1 : ¬ agents.length < 1 := by omega
    have h2 : agents.length > 1 := by omega
    simp [init_sub_agents, h1, h2]

/-- C6 witness: the three arities exercised at zero, one and two example
agents. -/
theorem C6_tool_surface_arity_witness :
    ([exAgentA] : List SubAgent).length = 1 ∧
    ((init_sub_agents [] [exAgentA]).1 = buildRegistry [exAgentA] ∧
     (init_sub_agents [] [exAgentA]).2.map SurfaceTool.params =
       [[], ["instructions"], ["question"]]) ∧
    2 ≤ ([exAgentA, exAgentB] : List SubAgent).length ∧
    ((init_sub_agents [] [exAgentA, exAgentB]).1 = buildRegistry [exAgentA, exAgentB] ∧
     (init_sub_agents [] [exAgentA, exAgentB]).2.map SurfaceTool.params =
       [[], ["sub_agent_id", "instructions"], ["sub_agent_id", "question"]]) ∧
    init_sub_agents ([] : Registry) [] = ([], []) :=
  ⟨by decide, (C6_tool_surface_arity [] [exAgentA]).2.1 (by decide),
   by decide, (C6_tool_surface_arity [] [exAgentA, exAgentB]).2.2 (by decide),
   (C6_tool_surface_arity [] []).1 rfl⟩

/-- C7: resolution with no id returns the entity in the first registry
position; resolution with an unknown id returns None, never another
entity, and the multi-mode run and chat capabilities then fail on the None
with an AttributeError. -/
theorem C7_resolution_semantics (reg rest : Registry) (ident k : String)
    (a : SubAgent) (gen : Gen) (disp : Disp) (instr q : String) :
    (reg = (k, a) :: rest → _get_agent reg none = Except.ok (some a)) ∧
    (dictGet reg ident = none →
       _get_agent reg (some ident) = Except.ok none ∧
       run_sub_agent_multi gen disp reg ident instr =
         CapResult.err PyError.attributeError reg ∧
       chat_with_sub_agent_multi gen reg ident q =
         CapResult.err PyError.attributeError reg) := by
  constructor
  · intro h; subst h
    simp [_get_agent, dictGet]
  · intro h
    refine ⟨?_, ?_, ?_⟩ <;>
      simp [_get_agent, run_sub_agent_multi, chat_with_sub_agent_multi, h]

/-- C7 witness: resolution exercised on the example registry with its
first entity and an unknown id "000". -/
theorem C7_resolution_semantics_witness :
    exRegistry = ("001", exAgentA) :: [("002", exAgentB)] ∧
    dictGet exRegistry "000" = none ∧
    _get_agent exRegistry none = Except.ok (some exAgentA) ∧
    (_get_agent exRegistry (some "000") = Except.ok none ∧
     run_sub_agent_multi exGen exDisp exRegistry "000" "go" =
       CapResult.err PyError.attributeError exRegistry ∧
     chat_with_sub_agent_multi exGen exRegistry "000" "hi" =
       CapResult.err PyError.attributeError exRegistry) :=
  ⟨by decide, by decide,
   (C7_resolution_semantics exRegistry [("002", exAgentB)] "000" "001"
      exAgentA exGen exDisp "go" "hi").1 (by decide),
   (C7_resolution_semantics exRegistry [("002", exAgentB)] "000" "001"
      exAgentA exGen exDisp "go" "hi").2 (by decide)⟩

/-- C10: resolving with no id on an empty (or absent, hence
defaulted-to-empty) registry raises IndexError from indexing the empty key
list, rather than returning the not-found None, and every single-mode
capability therefore fails on an empty registry; default resolution
succeeds as soon as at least one entity is registered. -/
theorem C10_default_resolution_needs_nonempty (reg : Registry) (gen : Gen)
    (disp : Disp) (instr q : String) :
    _get_agent ([] : Registry) none = Except.error PyError.indexError ∧
    run_sub_agent_single gen disp [] instr = CapResult.err PyError.indexError [] ∧
    chat_with_sub_agent_single gen [] q = CapResult.err PyError.indexError [] ∧
    sub_agent_specs_single [] = Except.error PyError.indexError ∧
    (reg ≠ [] → ∃ b, _get_agent reg none = Except.ok (some b)) := by
  refine ⟨rfl, rfl, rfl, rfl, ?_⟩
  intro h
  match reg, h with
  | (k, a) :: rest, _ => exact ⟨a, by simp [_get_agent, dictGet]⟩

theorem runSteps_spec (gen : Gen) (disp : Disp) (ts : ToolNames) :
    ∀ (fuel idx : Nat) (msgs : List Message),
      (∀ msgs2, runSteps gen disp (some ts) fuel idx msgs idx = LoopExit.unbound msgs2 →
          msgs2 = msgs ∧ fuel = 0 ∧ idx = 0) ∧
      (∀ e msgs2 calls2,
          runSteps gen disp (some ts) fuel idx msgs idx = LoopExit.pyErr e msgs2 calls2 →
          calls2 ≤ idx + fuel ∧ (∃ suf, msgs2 = msgs ++ suf) ∧
          ∃ s, e = PyError.collabError s) ∧
      (∀ msgs2 steps calls2 term,
          runSteps gen disp (some ts) fuel idx msgs idx = LoopExit.done msgs2 steps calls2 term →
          calls2 ≤ idx + fuel ∧ (∃ suf, msgs2 = msgs ++ suf) ∧
          (term = false → calls2 = idx + fuel ∧ steps + 1 = idx + fuel) ∧
          (term = true → calls2 = steps + 1 ∧ idx ≤ steps ∧ steps < idx + fuel ∧
            ∃ (pre : List Message) (res : List ToolResult),
              msgs2 = pre ++ res.map Message.tool ∧
              res.any (fun r => r.function == endRunName) = true)) := by
  intro fuel
  induction fuel with
  | zero =>
      intro idx msgs
      have h0 : runSteps gen disp (some ts) 0 idx msgs idx =
          if idx = 0 then LoopExit.unbound msgs
          else LoopExit.done msgs (idx - 1) idx false := rfl
      by_cases hidx : idx = 0
      · rw [if_pos hidx] at h0
        refine ⟨?_, ?_, ?_⟩
        · intro msgs2 h
          rw [h0] at h
          cases h
          exact ⟨rfl, rfl, hidx⟩
        · intro e msgs2 calls2 h
          rw [h0] at h
          exact LoopExit.noConfusion h
        · intro msgs2 steps calls2 term h
          rw [h0] at h
          exact LoopExit.noConfusion h
      · rw [if_neg hidx] at h0
        refine ⟨?_, ?_, ?_⟩
        · intro msgs2 h
          rw [h0] at h
          exact LoopExit.noConfusion h
        · intro e msgs2 calls2 h
          rw [h0] at h
          exact LoopExit.noConfusion h
        · intro msgs2 steps calls2 term h
          rw [h0] at h
          cases h
          refine ⟨by omega, ⟨[], by simp⟩, ?_, ?_⟩
          · intro hb
            exact ⟨by omega, by omega⟩
          · intro hb
            cases hb
  | succ fuel ih =>
      intro idx msgs
      cases hg : gen msgs (some (ts ++ [endRunName])) with
      | error e0 =>
          refine ⟨?_, ?_, ?_⟩
          · intro msgs2 h
            simp only [runSteps, hg] at h
            exact LoopExit.noConfusion h
          · intro e msgs2 calls2 h
            simp only [runSteps, hg] at h
            cases h
            exact ⟨by omega, ⟨[], by simp⟩, e0, rfl⟩
          · intro msgs2 steps calls2 term h
            simp only [runSteps, hg] at h
            exact LoopExit.noConfusion h
      | ok out =>
          cases htc : out.tool_calls with
          | nil =>
              obtain ⟨ihu, ihe, ihd⟩ := ih (idx + 1) (msgs ++ [Message.assistant out])
              refine ⟨?_, ?_, ?_⟩
              · intro msgs2 h
                simp only [runSteps, hg, htc] at h
                obtain ⟨_, _, hz⟩ := ihu msgs2 h
                omega
              · intro e msgs2 calls2 h
                simp only [runSteps, hg, htc] at h
                obtain ⟨hc, ⟨suf, hs⟩, hcol⟩ := ihe e msgs2 calls2 h
                refine ⟨by omega, ⟨Message.assistant out :: suf, ?_⟩, hcol⟩
                simp [hs]
              · intro msgs2 steps calls2 term h
                simp only [runSteps, hg, htc] at h
                obtain ⟨hc, ⟨suf, hs⟩, hf, ht⟩ := ihd msgs2 steps calls2 term h
                refine ⟨by omega, ⟨Message.assistant out :: suf, by simp [hs]⟩, ?_, ?_⟩
                · intro hb
                  obtain ⟨h1, h2⟩ := hf hb
                  exact ⟨by omega, by omega⟩
                · intro hb
                  obtain ⟨h1, h2, h3, h4⟩ := ht hb
                  exact ⟨h1, by omega, by omega, h4⟩
          | cons c0 cs =>
              cases hd : disp out (ts ++ [endRunName]) with
              | error e0 =>
                  refine ⟨?_, ?_, ?_⟩
                  · intro msgs2 h
                    simp only [runSteps, hg, htc, hd] at h
                    exact LoopExit.noConfusion h
                  · intro e msgs2 calls2 h
                    simp only [runSteps, hg, htc, hd] at h
                    cases h
                    exact ⟨by omega, ⟨[Message.assistant out], rfl⟩, e0, rfl⟩
                  · intro msgs2 steps calls2 term h
                    simp only [runSteps, hg, htc, hd] at h
                    exact LoopExit.noConfusion h
              | ok results =>
                  cases hany : results.any (fun r => r.function == endRunName) with
                  | true =>
                      refine ⟨?_, ?_, ?_⟩
                      · intro msgs2 h
                        simp only [runSteps, hg, htc, hd, hany] at h
                        exact LoopExit.noConfusion h
                      · intro e msgs2 calls2 h
                        simp only [runSteps, hg, htc, hd, hany] at h
                        exact LoopExit.noConfusion h
                      · intro msgs2 steps calls2 term h
                        simp only [runSteps, hg, htc, hd, hany] at h
                        cases h
                        refine ⟨by omega,
                          ⟨Message.assistant out :: results.map Message.tool, by simp⟩,
                          ?_, ?_⟩
                        · intro hb
                          cases hb
                        · intro hb
                          exact ⟨rfl, le_refl idx, by omega,
                            msgs ++ [Message.assistant out], results, rfl, hany⟩
                  | false =>
                      obtain ⟨ihu, ihe, ihd⟩ := ih (idx + 1)
                        ((msgs ++ [Message.assistant out]) ++ results.map Message.tool)
                      refine ⟨?_, ?_, ?_⟩
                      · intro msgs2 h
                        simp only [runSteps, hg, htc, hd, hany] at h
                        obtain ⟨_, _, hz⟩ := ihu msgs2 h
                        omega
                      · intro e msgs2 calls2 h
                        simp only [runSteps, hg, htc, hd, hany] at h
                        obtain ⟨hc, ⟨suf, hs⟩, hcol⟩ := ihe e msgs2 calls2 h
                        refine ⟨by omega,
                          ⟨Message.assistant out :: (results.map Message.tool ++ suf), ?_⟩, hcol⟩
                        simp [hs]
                      · intro msgs2 steps calls2 term h
                        simp only [runSteps, hg, htc, hd, hany] at h
                        obtain ⟨hc, ⟨suf, hs⟩, hf, ht⟩ := ihd msgs2 steps calls2 term h
                        refine ⟨by omega,
                          ⟨Message.assistant out :: (results.map Message.tool ++ suf),
                            by simp [hs]⟩, ?_, ?_⟩
                        · intro hb
                          obtain ⟨h1, h2⟩ := hf hb
                          exact ⟨by omega, by omega⟩
                        · intro hb
                          obtain ⟨h1, h2, h3, h4⟩ := ht hb
                          exact ⟨h1, by omega, by omega, h4⟩

theorem runSteps_noToolCalls (gen : Gen) (disp : Disp) (ts : ToolNames)
    (out0 : AssistantMsg) (hout : out0.tool_calls = [])
    (hgen : ∀ h2 t2, gen h2 t2 = Except.ok out0) :
    ∀ (fuel idx : Nat) (msgs : List Message), 1 ≤ fuel + idx →
      runSteps gen disp (some ts) fuel idx msgs idx =
        LoopExit.done (msgs ++ List.replicate fuel (Message.assistant out0))
          (idx + fuel - 1) (idx + fuel) false := by
  intro fuel
  induction fuel with
  | zero =>
      intro idx msgs h1
      have hidx : ¬ idx = 0 := by omega
      have h0 : runSteps gen disp (some ts) 0 idx msgs idx =
          if idx = 0 then LoopExit.unbound msgs
          else LoopExit.done msgs (idx - 1) idx false := rfl
      rw [h0, if_neg hidx]
      simp
  | succ fuel ih =>
      intro idx msgs h1
      have hg := hgen msgs (some (ts ++ [endRunName]))
      simp only [runSteps, hg, hout]
      rw [ih (idx + 1) (msgs ++ [Message.assistant out0]) (by omega)]
      have hmsgs : (msgs ++ [Message.assistant out0]) ++
          List.replicate fuel (Message.assistant out0) =
          msgs ++ List.replicate (fuel + 1) (Message.assistant out0) := by
        rw [List.append_assoc]
        simp [List.replicate_succ]
      have hsteps : idx + 1 + fuel - 1 = idx + (fuel + 1) - 1 := by omega
      have hcalls : idx + 1 + fuel = idx + (fuel + 1) := by omega
      rw [hmsgs, hsteps, hcalls]

theorem runSteps_stops_on_endRun (gen : Gen) (disp : Disp) (ts : ToolNames)
    (fuel idx : Nat) (msgs : List Message) (out : AssistantMsg)
    (results : List ToolResult)
    (hg : gen msgs (some (ts ++ [endRunName])) = Except.ok out)
    (htc : out.tool_calls ≠ [])
    (hd : disp out (ts ++ [endRunName]) = Except.ok results)
    (hany : results.any (fun r => r.function == endRunName) = true) :
    runSteps gen disp (some ts) (fuel + 1) idx msgs idx =
      LoopExit.done ((msgs ++ [Message.assistant out]) ++ results.map Message.tool)
        idx (idx + 1) true := by
  rcases hl : out.tool_calls with _ | ⟨c0, cs⟩
  · exact absurd hl htc
  · simp only [runSteps, hg, hl, hd, hany]

theorem heapGet_heapSet : ∀ (h : Heap) (r : AgentRef) (a : SubAgent),
    heapGet (heapSet h r a) r = some a := by
  intro h r a
  induction h with
  | nil => simp [heapSet, heapGet]
  | cons p rest ih =>
      obtain ⟨r2, b⟩ := p
      by_cases hr : r2 = r
      · simp [heapSet, heapGet, hr]
      · simp only [heapSet, heapGet, if_neg hr]
        exact ih

theorem run_logic_ref_eq (gen : Gen) (disp : Disp) (heap : Heap)
    (reg : RefRegistry) (r : AgentRef) (instr : String) :
    _run_logic_ref gen disp heap reg r instr =
      match heapGet heap r with
      | none => RunRefResult.err PyError.attributeError heap reg
      | some a =>
          match runSteps gen disp a.tools a.max_steps 0
              (a.messages ++ [Message.user instr]) 0 with
          | .unbound msgs =>
              RunRefResult.err PyError.nameError
                (heapSet heap r { a with messages := msgs })
                (refDictSet reg a.agent_id r)
          | .pyErr e msgs _ =>
              RunRefResult.err e (heapSet heap r { a with messages := msgs }) reg
          | .done msgs steps _ _ =>
              RunRefResult.ok (heapSet heap r { a with messages := msgs })
                (refDictSet reg a.agent_id r) (statusString steps) := by
  cases hh : heapGet heap r with
  | none => simp [_run_logic_ref, hh]
  | some a =>
      simp only [_run_logic_ref, hh]

theorem run_logic_eq (gen : Gen) (disp : Disp) (reg : Registry) (a : SubAgent)
    (instr : String) :
    _run_logic gen disp reg a instr =
      match runSteps gen disp a.tools a.max_steps 0
          (a.messages ++ [Message.user instr]) 0 with
      | .unbound msgs =>
          RunResult.err PyError.nameError
            (_update_store reg { a with messages := msgs })
            { a with messages := msgs } 0
      | .pyErr e msgs calls => RunResult.err e reg { a with messages := msgs } calls
      | .done msgs steps calls term =>
          RunResult.ok (_update_store reg { a with messages := msgs })
            { a with messages := msgs } (statusString steps) steps calls term := rfl

theorem run_ok_implies_tools (gen : Gen) (disp : Disp) (reg : Registry)
    (a : SubAgent) (instr : String) (reg2 : Registry) (a2 : SubAgent)
    (st : String) (steps calls : Nat) (term : Bool)
    (h : _run_logic gen disp reg a instr = RunResult.ok reg2 a2 st steps calls term) :
    ∃ ts, a.tools = some ts := by
  cases htl : a.tools with
  | some ts => exact ⟨ts, rfl⟩
  | none =>
      exfalso
      rw [run_logic_eq, htl] at h
      rcases hms : a.max_steps with _ | s <;> rw [hms] at h
      · have hred : runSteps gen disp (none : Option ToolNames) 0 0
            (a.messages ++ [Message.user instr]) 0 =
            LoopExit.unbound (a.messages ++ [Message.user instr]) := rfl
        rw [hred] at h
        exact RunResult.noConfusion h
      · have hred : runSteps gen disp (none : Option ToolNames) (s + 1) 0
            (a.messages ++ [Message.user instr]) 0 =
            LoopExit.pyErr PyError.typeError (a.messages ++ [Message.user instr]) 0 := rfl
        rw [hred] at h
        exact RunResult.noConfusion h

/-- C2: for every run against an entity whose tools were supplied, the
model collaborator is invoked at most max_steps times, and the loop stops
before the next model invocation exactly when a dispatched tool result
whose function name equals the termination tool name appears.  The match
direction: at any loop state with budget remaining, a step whose model
response requests tool calls and whose dispatched batch contains a result
named like the termination tool makes the loop return immediately at that
step — the first such step — with exactly one more model call, however
much budget remains, and whatever the result text; instantiated at the
first step of a run it gives the whole run result with term = true.  The
converse direction: a normal exit with term = true ends in a dispatched
block containing such a result (name only, content ignored), and a normal
exit without it consumed the full budget; in particular a model response
carrying no tool calls still consumes its step and the loop proceeds to
budget exhaustion — the only other stop condition. -/
theorem C2_run_budget_and_termination (gen : Gen) (disp : Disp)
    (reg : Registry) (a : SubAgent) (instr : String) (ts : ToolNames)
    (htools : a.tools = some ts) :
    (_run_logic gen disp reg a instr).callCount ≤ a.max_steps ∧
    (∀ reg2 a2 st steps calls term,
        _run_logic gen disp reg a instr = RunResult.ok reg2 a2 st steps calls term →
        (term = false → calls = a.max_steps) ∧
        (term = true → calls = steps + 1 ∧
          ∃ (pre : List Message) (res : List ToolResult),
            a2.messages = pre ++ res.map Message.tool ∧
            res.any (fun r => r.function == endRunName) = true)) ∧
    (∀ out0 : AssistantMsg, out0.tool_calls = [] →
        (∀ h2 t2, gen h2 t2 = Except.ok out0) → 1 ≤ a.max_steps →
        _run_logic gen disp reg a instr =
          RunResult.ok
            (_update_store reg
              { a with messages := (a.messages ++ [Message.user instr]) ++
                  List.replicate a.max_steps (Message.assistant out0) })
            { a with messages := (a.messages ++ [Message.user instr]) ++
                List.replicate a.max_steps (Message.assistant out0) }
            (statusString (a.max_steps - 1)) (a.max_steps - 1)
            a.max_steps false) ∧
    (∀ (out : AssistantMsg) (results : List ToolResult),
        gen (a.messages ++ [Message.user instr]) (some (ts ++ [endRunName])) =
          Except.ok out →
        out.tool_calls ≠ [] →
        disp out (ts ++ [endRunName]) = Except.ok results →
        results.any (fun r => r.function == endRunName) = true →
        1 ≤ a.max_steps →
        _run_logic gen disp reg a instr =
          RunResult.ok
            (_update_store reg
              { a with messages := ((a.messages ++ [Message.user instr]) ++
                  [Message.assistant out]) ++ results.map Message.tool })
            { a with messages := ((a.messages ++ [Message.user instr]) ++
                [Message.assistant out]) ++ results.map Message.tool }
            (statusString 0) 0 1 true) ∧
    (∀ (fuel idx : Nat) (msgs : List Message) (out : AssistantMsg)
        (results : List ToolResult),
        gen msgs (some (ts ++ [endRunName])) = Except.ok out →
        out.tool_calls ≠ [] →
        disp out (ts ++ [endRunName]) = Except.ok results →
        results.any (fun r => r.function == endRunName) = true →
        runSteps gen disp (some ts) (fuel + 1) idx msgs idx =
          LoopExit.done
            ((msgs ++ [Message.assistant out]) ++ results.map Message.tool)
            idx (idx + 1) true) := by
  obtain ⟨hu, he, hd⟩ := runSteps_spec gen disp ts a.max_steps 0
    (a.messages ++ [Message.user instr])
  refine ⟨?_, ?_, ?_, ?_, ?_⟩
  · rw [run_logic_eq, htools]
    cases hR : runSteps gen disp (some ts) a.max_steps 0
        (a.messages ++ [Message.user instr]) 0 with
    | unbound msgs => simp [RunResult.callCount]
    | pyErr e msgs calls3 =>
        obtain ⟨hc, _, _⟩ := he e msgs calls3 hR
        simpa [RunResult.callCount] using hc
    | done msgs steps3 calls3 term3 =>
        obtain ⟨hc, _, _, _⟩ := hd msgs steps3 calls3 term3 hR
        simpa [RunResult.callCount] using hc
  · intro reg2 a2 st steps calls term h
    rw [run_logic_eq, htools] at h
    cases hR : runSteps gen disp (some ts) a.max_steps 0
        (a.messages ++ [Message.user instr]) 0 with
    | unbound msgs =>
        rw [hR] at h
        exact RunResult.noConfusion h
    | pyErr e msgs calls3 =>
        rw [hR] at h
        exact RunResult.noConfusion h
    | done msgs steps3 calls3 term3 =>
        obtain ⟨hc, hsuf, hf, ht⟩ := hd msgs steps3 calls3 term3 hR
        rw [hR] at h
        cases h
        constructor
        · intro h0
          obtain ⟨h1, _⟩ := hf h0
          omega
        · intro h0
          obtain ⟨h1, h2, h3, pre, res, hm, ha⟩ := ht h0
          exact ⟨by omega, pre, res, by simpa using hm, ha⟩
  · intro out0 hout hgen hms
    have hrun := runSteps_noToolCalls gen disp ts out0 hout hgen a.max_steps 0
      (a.messages ++ [Message.user instr]) (by omega)
    rw [run_logic_eq, htools, hrun]
    simp
  · intro out results hg2 htc2 hd2 hany2 hms
    rw [run_logic_eq, htools]
    rcases hm : a.max_steps with _ | s
    · omega
    · rw [runSteps_stops_on_endRun gen disp ts s 0
        (a.messages ++ [Message.user instr]) out results hg2 htc2 hd2 hany2]
  · intro fuel idx msgs out results hg2 htc2 hd2 hany2
    exact runSteps_stops_on_endRun gen disp ts fuel idx msgs out results
      hg2 htc2 hd2 hany2

/-- C2 witness: the contract instantiated under the collaborators that
request and answer the termination tool on the first step, exhibiting a
concrete explicitly-terminated run: with budget 2 the run stops after one
model call, term = true, the termination result last in the history. -/
theorem C2_run_budget_and_termination_witness :
    exAgentA.tools = some ["dummy_tool"] ∧
    exGenEnd (exAgentA.messages ++ [Message.user "go"])
        (some (["dummy_tool"] ++ [endRunName])) =
      Except.ok (⟨"calling", [endRunName]⟩ : AssistantMsg) ∧
    (⟨"calling", [endRunName]⟩ : AssistantMsg).tool_calls ≠ [] ∧
    exDispEnd ⟨"calling", [endRunName]⟩ (["dummy_tool"] ++ [endRunName]) =
      Except.ok [⟨endRunName, "Run ended with reason: done"⟩] ∧
    ([(⟨endRunName, "Run ended with reason: done"⟩ : ToolResult)].any
        (fun r => r.function == endRunName)) = true ∧
    1 ≤ exAgentA.max_steps ∧
    _run_logic exGenEnd exDispEnd [] exAgentA "go" =
      RunResult.ok (_update_store [] exAgentAEnd) exAgentAEnd
        (statusString 0) 0 1 true ∧
    (_run_logic exGenEnd exDispEnd [] exAgentA "go").callCount ≤
      exAgentA.max_steps := by
  refine ⟨rfl, rfl, by decide, rfl, by decide, by decide, ?_, ?_⟩
  · exact (C2_run_budget_and_termination exGenEnd exDispEnd [] exAgentA "go"
      ["dummy_tool"] rfl).2.2.2.1 ⟨"calling", [endRunName]⟩
      [⟨endRunName, "Run ended with reason: done"⟩] rfl (by decide) rfl
      (by decide) (by decide)
  · exact (C2_run_budget_and_termination exGenEnd exDispEnd [] exAgentA "go"
      ["dummy_tool"] rfl).1

/-- C3: the status string of a successful run reports the final value of
the loop variable, the 0-based index of the last executed step — a
budget-exhausted run of max_steps = n reports n - 1, and an explicitly
terminated run reports one less than the number of model invocations made,
the index of the step during which termination occurred — not the count of
steps executed. -/
theorem C3_status_reports_step_index (gen : Gen) (disp : Disp)
    (reg reg2 : Registry) (a a2 : SubAgent) (instr st : String)
    (steps calls : Nat) (term : Bool) (ts : ToolNames)
    (htools : a.tools = some ts)
    (h : _run_logic gen disp reg a instr = RunResult.ok reg2 a2 st steps calls term) :
    st = statusString steps ∧
    (term = false → steps + 1 = a.max_steps) ∧
    (term = true → steps + 1 = calls) := by
  obtain ⟨hu, he, hd⟩ := runSteps_spec gen disp ts a.max_steps 0
    (a.messages ++ [Message.user instr])
  rw [run_logic_eq, htools] at h
  cases hR : runSteps gen disp (some ts) a.max_steps 0
      (a.messages ++ [Message.user instr]) 0 with
  | unbound msgs =>
      rw [hR] at h
      exact RunResult.noConfusion h
  | pyErr e msgs calls3 =>
      rw [hR] at h
      exact RunResult.noConfusion h
  | done msgs steps3 calls3 term3 =>
      obtain ⟨hc, hsuf, hf, ht⟩ := hd msgs steps3 calls3 term3 hR
      rw [hR] at h
      cases h
      refine ⟨rfl, ?_, ?_⟩
      · intro h0
        obtain ⟨h1, h2⟩ := hf h0
        omega
      · intro h0
        obtain ⟨h1, _, _, _⟩ := ht h0
        omega

/-- C3 witness: the example two-step budget-exhausted run reports step
index 1, not step count 2. -/
theorem C3_status_reports_step_index_witness :
    exAgentA.tools = some ["dummy_tool"] ∧
    _run_logic exGen exDisp [] exAgentA "go" =
      RunResult.ok (_update_store [] exAgentA2) exAgentA2 (statusString 1) 1 2 false ∧
    (statusString 1 = statusString 1 ∧
     (false = false → 1 + 1 = exAgentA.max_steps) ∧
     (false = true → 1 + 1 = 2)) :=
  ⟨rfl, by decide,
   C3_status_reports_step_index exGen exDisp [] (_update_store [] exAgentA2)
     exAgentA exAgentA2 "go" (statusString 1) 1 2 false ["dummy_tool"] rfl (by decide)⟩

/-- C4 counterexample: with the store holding entity 001 by reference and
the model collaborator raising on the first generate, the run fails with
no registry write, yet resolving "001" through the registry afterwards
yields the mutated entity carrying the appended instruction message — not
the pre-run entity state — so the messages appended during the failed run
ARE visible in the registry, refuting the claim as stated. -/
theorem C4_counterexample :
    _run_logic_ref exGenBoom exDisp [(0, exAgentA)] [("001", 0)] 0 "go" =
      RunRefResult.err (PyError.collabError "boom") [(0, exAgentA1go)] [("001", 0)] ∧
    refResolve [("001", 0)] [(0, exAgentA)] "001" = some exAgentA ∧
    refResolve [("001", 0)] [(0, exAgentA1go)] "001" = some exAgentA1go ∧
    ¬ (refResolve [("001", 0)] [(0, exAgentA1go)] "001" = some exAgentA) ∧
    exAgentA1go.messages = exAgentA.messages ++ [Message.user "go"] := by
  refine ⟨?_, ?_, ?_, ?_, ?_⟩ <;> decide

/-- C4 (amended): if the model or tool-dispatcher collaborator raises
during a run, no registry write occurs — the id → object mapping is
exactly the input mapping, persistence happening only after normal loop
exit — and the error propagates; but because the registry stores the
entity object by reference and message appends mutate it in place, the
instruction and the partially appended messages of the failed run remain
reachable through the registry, which resolves to the same mutated
in-memory entity; on normal exit the mapping is rewritten for the entity
id. -/
theorem C4_failure_no_write_but_aliased (gen : Gen) (disp : Disp)
    (heap : Heap) (reg : RefRegistry) (r : AgentRef) (a : SubAgent)
    (instr : String) (ts : ToolNames)
    (hheap : heapGet heap r = some a) (htools : a.tools = some ts) :
    (∀ s heap2 reg2,
        _run_logic_ref gen disp heap reg r instr =
          RunRefResult.err (PyError.collabError s) heap2 reg2 →
        reg2 = reg ∧
        (∃ suf, heapGet heap2 r =
            some { a with messages := a.messages ++ Message.user instr :: suf }) ∧
        (∀ ident, refDictGet reg ident = some r →
            ∃ suf, refResolve reg2 heap2 ident =
              some { a with messages := a.messages ++ Message.user instr :: suf })) ∧
    (∀ heap2 reg2 st,
        _run_logic_ref gen disp heap reg r instr = RunRefResult.ok heap2 reg2 st →
        reg2 = refDictSet reg a.agent_id r) := by
  obtain ⟨hu, he, hd⟩ := runSteps_spec gen disp ts a.max_steps 0
    (a.messages ++ [Message.user instr])
  constructor
  · intro s heap2 reg2 h
    rw [run_logic_ref_eq] at h
    simp only [hheap] at h
    cases hR : runSteps gen disp a.tools a.max_steps 0
        (a.messages ++ [Message.user instr]) 0 with
    | unbound msgs =>
        rw [hR] at h
        simp at h
    | done msgs steps3 calls3 term3 =>
        rw [hR] at h
        exact RunRefResult.noConfusion h
    | pyErr e msgs calls3 =>
        rw [hR] at h
        rw [htools] at hR
        obtain ⟨hc, ⟨suf, hs⟩, _⟩ := he e msgs calls3 hR
        cases h
        refine ⟨rfl, ⟨suf, ?_⟩, ?_⟩
        · rw [heapGet_heapSet]
          simp [hs]
        · intro ident hid
          refine ⟨suf, ?_⟩
          simp only [refResolve, hid, heapGet_heapSet]
          simp [hs]
  · intro heap2 reg2 st h
    rw [run_logic_ref_eq] at h
    simp only [hheap] at h
    cases hR : runSteps gen disp a.tools a.max_steps 0
        (a.messages ++ [Message.user instr]) 0 with
    | unbound msgs =>
        rw [hR] at h
        exact RunRefResult.noConfusion h
    | pyErr e msgs calls3 =>
        rw [hR] at h
        exact RunRefResult.noConfusion h
    | done msgs steps3 calls3 term3 =>
        rw [hR] at h
        cases h
        rfl

/-- C4 witness: the amended no-write-but-aliased contract instantiated
with the raising model collaborator on the concrete one-entity heap and
registry of the counterexample. -/
theorem C4_failure_no_write_but_aliased_witness :
    heapGet [(0, exAgentA)] 0 = some exAgentA ∧
    exAgentA.tools = some ["dummy_tool"] ∧
    ((∀ s heap2 reg2,
        _run_logic_ref exGenBoom exDisp [(0, exAgentA)] [("001", 0)] 0 "go" =
          RunRefResult.err (PyError.collabError s) heap2 reg2 →
        reg2 = [("001", 0)] ∧
        (∃ suf, heapGet heap2 0 =
            some { exAgentA with messages :=
              exAgentA.messages ++ Message.user "go" :: suf }) ∧
        (∀ ident, refDictGet [("001", 0)] ident = some 0 →
            ∃ suf, refResolve reg2 heap2 ident =
              some { exAgentA with messages :=
                exAgentA.messages ++ Message.user "go" :: suf })) ∧
     (∀ heap2 reg2 st,
        _run_logic_ref exGenBoom exDisp [(0, exAgentA)] [("001", 0)] 0 "go" =
          RunRefResult.ok heap2 reg2 st →
        reg2 = refDictSet [("001", 0)] exAgentA.agent_id 0)) :=
  ⟨by decide, rfl,
   C4_failure_no_write_but_aliased exGenBoom exDisp [(0, exAgentA)] [("001", 0)]
     0 exAgentA "go" ["dummy_tool"] (by decide) rfl⟩

/-- C5: a chat invocation appends exactly two messages — the question as a
user message, then the assistant response — passes no tools argument to
the model (its outcome depends only on the collaborator behaviour at
no-tools calls), persists the updated entity, leaves every other entity
field including max_steps unchanged, and returns the assistant text. -/
theorem C5_chat_two_messages_no_tools (gen : Gen) (reg : Registry)
    (a : SubAgent) (q : String) (out : AssistantMsg)
    (h : gen (a.messages ++ [Message.user q]) none = Except.ok out) :
    _chat_logic gen reg a q =
      ChatResult.ok
        (_update_store reg
          { a with messages := a.messages ++ [Message.user q, Message.assistant out] })
        { a with messages := a.messages ++ [Message.user q, Message.assistant out] }
        out.text ∧
    (∀ gen2 : Gen, (∀ hist, gen2 hist none = gen hist none) →
        _chat_logic gen2 reg a q = _chat_logic gen reg a q) := by
  constructor
  · simp [_chat_logic, h]
  · intro gen2 hagree
    simp [_chat_logic, hagree]

/-- C5 witness: the chat contract instantiated at the example agent and a
concrete assistant reply. -/
theorem C5_chat_two_messages_no_tools_witness :
    exGen (exAgentA.messages ++ [Message.user "hi"]) none =
      Except.ok (⟨"ok", []⟩ : AssistantMsg) ∧
    (_chat_logic exGen [] exAgentA "hi" =
      ChatResult.ok
        (_update_store []
          { exAgentA with messages := exAgentA.messages ++
              [Message.user "hi", Message.assistant ⟨"ok", []⟩] })
        { exAgentA with messages := exAgentA.messages ++
            [Message.user "hi", Message.assistant ⟨"ok", []⟩] }
        (⟨"ok", []⟩ : AssistantMsg).text ∧
     (∀ gen2 : Gen, (∀ hist, gen2 hist none = exGen hist none) →
        _chat_logic gen2 [] exAgentA "hi" = _chat_logic exGen [] exAgentA "hi")) :=
  ⟨rfl, C5_chat_two_messages_no_tools exGen [] exAgentA "hi" ⟨"ok", []⟩ rfl⟩

/-- C9: a sub-agent whose tools argument was omitted (stored unchanged as
None) makes every run invocation raise a TypeError while building the
per-run capability set — with zero model invocations, a result independent
of both collaborators, and only the instruction message appended — and a
run can return normally only when tools was supplied as a list. -/
theorem C9_run_requires_tools (gen : Gen) (disp : Disp) (reg : Registry)
    (a : SubAgent) (instr : String) :
    (a.tools = none → 1 ≤ a.max_steps →
        _run_logic gen disp reg a instr =
          RunResult.err PyError.typeError reg
            { a with messages := a.messages ++ [Message.user instr] } 0) ∧
    (∀ reg2 a2 st steps calls term,
        _run_logic gen disp reg a instr = RunResult.ok reg2 a2 st steps calls term →
        ∃ ts, a.tools = some ts) := by
  constructor
  · intro htl hms
    rw [run_logic_eq, htl]
    rcases hm : a.max_steps with _ | s
    · omega
    · rfl
  · intro reg2 a2 st steps calls term h
    exact run_ok_implies_tools gen disp reg a instr reg2 a2 st steps calls term h

/-- C9 witness: the TypeError contract instantiated at the example agent
constructed with tools omitted. -/
theorem C9_run_requires_tools_witness :
    exAgentB.tools = none ∧ 1 ≤ exAgentB.max_steps ∧
    _run_logic exGen exDisp exRegistry exAgentB "go" =
      RunResult.err PyError.typeError exRegistry
        { exAgentB with messages := exAgentB.messages ++ [Message.user "go"] } 0 :=
  ⟨rfl, by decide,
   (C9_run_requires_tools exGen exDisp exRegistry exAgentB "go").1 rfl (by decide)⟩

/-- C10 witness: the empty-registry IndexError and a successful default
resolution on the nonempty example registry. -/
theorem C10_default_resolution_needs_nonempty_witness :
    exRegistry ≠ [] ∧
    (_get_agent ([] : Registry) none = Except.error PyError.indexError ∧
     run_sub_agent_single exGen exDisp [] "go" = CapResult.err PyError.indexError [] ∧
     chat_with_sub_agent_single exGen [] "hi" = CapResult.err PyError.indexError [] ∧
     sub_agent_specs_single [] = Except.error PyError.indexError ∧
     (exRegistry ≠ [] → ∃ b, _get_agent exRegistry none = Except.ok (some b))) :=
  ⟨by decide, C10_default_resolution_needs_nonempty exRegistry exGen exDisp "go" "hi"⟩

end MultiagentInspect
